import Mathlib

/-!
Verification of the event-processing core of the stat_arb_backtester repository.

The development shallowly embeds the C++ sources:
  * `src/include/concurrent/disruptor_queue.hpp` (`DisruptorQueue<T, Size>`),
  * `src/include/core/event_types.hpp` (the tagged-union event model),
  * `src/include/engine/event_dispatcher.hpp` (`EventDispatcher`),
  * `src/include/concurrent/event_pool.hpp` (`EventPool<T>`),
  * `src/include/engine/cerebro.hpp` (`Cerebro`),
  * `src/include/event_system.hpp` (the `emitSignal`/`emitOrder`/`emitFill`
    publish-boundary helpers of the collaborator interfaces).

Conventions of the embedding:
  * The C++ `uint64_t` sequence counters are modelled as `Nat`.  The counters
    start at 0 and increase by at most 1 per operation, so within any run of
    fewer than 2^64 operations (every statement below quantifies over finite
    operation sequences from the freshly constructed object) the C++ values
    never wrap and agree with the `Nat` model.
  * `double` price fields are modelled as `Rat`: the code only ever compares
    them with `<=`, `<` and `>`, never computes with them on the modelled
    paths.
  * Stateful C++ objects become explicit state records; member functions
    become functions from state to (result, state).
  * Wall-clock readings (`std::chrono::high_resolution_clock`) are not
    modelled; the latency statistics derived from them are carried as opaque
    counters that the modelled operations leave untouched.
  * Each collaborator interface (`IStrategy`, `IPortfolio`,
    `IExecutionHandler`, `IDataHandler`) is a virtual class; a conforming
    implementation is modelled as a record of functions.  A call that throws
    a C++ exception (`std::exception`) is modelled by returning a
    `some CppError` flag next to the callee's effect on the shared queue.
-/

namespace StatArb

/-! ## DisruptorQueue (src/include/concurrent/disruptor_queue.hpp)

State of `DisruptorQueue<T, Size>`: the ring buffer array `buffer_`, the two
sequence counters, the two cached opposite-side counters, and the three
statistics counters.  `Size` is the template parameter (a power of two in the
source, enforced by `static_assert`). -/

structure QueueState (T : Type) (Size : Nat) where
  buffer : List T
  write_sequence : Nat
  read_sequence : Nat
  cached_read_sequence : Nat
  cached_write_sequence : Nat
  total_published : Nat
  total_consumed : Nat
  failed_publishes : Nat

/-- Freshly constructed `DisruptorQueue`: all counters zero, buffer of `Size`
default-constructed elements (`std::array<T, Size>` value-initialises). -/
def QueueState.init (T : Type) [Inhabited T] (Size : Nat) : QueueState T Size :=
  { buffer := List.replicate Size default
    write_sequence := 0
    read_sequence := 0
    cached_read_sequence := 0
    cached_write_sequence := 0
    total_published := 0
    total_consumed := 0
    failed_publishes := 0 }

/-- `DisruptorQueue::try_publish` (disruptor_queue.hpp lines 103-126).
`MASK = Size - 1`; the slot index is `current_write & MASK`.  The full check
first consults the cached read sequence and refreshes it from
`read_sequence_` when the cached value looks full. -/
def QueueState.try_publish {T : Type} {Size : Nat} (s : QueueState T Size) (item : T) :
    Bool × QueueState T Size :=
  let current_write := s.write_sequence
  let next_write := current_write + 1
  let cached_read0 := s.cached_read_sequence
  if next_write > cached_read0 + Size then
    let cached_read := s.read_sequence
    let s1 : QueueState T Size := { s with cached_read_sequence := cached_read }
    if next_write > cached_read + Size then
      (false, { s1 with failed_publishes := s1.failed_publishes + 1 })
    else
      (true, { s1 with
                buffer := s1.buffer.set (current_write &&& (Size - 1)) item
                write_sequence := next_write
                total_published := s1.total_published + 1 })
  else
    (true, { s with
              buffer := s.buffer.set (current_write &&& (Size - 1)) item
              write_sequence := next_write
              total_published := s.total_published + 1 })

/-- `DisruptorQueue::try_consume` (disruptor_queue.hpp lines 136-157).
The emptiness check first consults the cached write sequence and refreshes it
from `write_sequence_` when the cached value looks empty. -/
def QueueState.try_consume {T : Type} [Inhabited T] {Size : Nat} (s : QueueState T Size) :
    Option T × QueueState T Size :=
  let current_read := s.read_sequence
  let cached_write0 := s.cached_write_sequence
  if current_read ≥ cached_write0 then
    let cached_write := s.write_sequence
    let s1 : QueueState T Size := { s with cached_write_sequence := cached_write }
    if current_read ≥ cached_write then
      (none, s1)
    else
      (some (s1.buffer.getD (current_read &&& (Size - 1)) default),
       { s1 with
          read_sequence := current_read + 1
          total_consumed := s1.total_consumed + 1 })
  else
    (some (s.buffer.getD (current_read &&& (Size - 1)) default),
     { s with
        read_sequence := current_read + 1
        total_consumed := s.total_consumed + 1 })

/-- `DisruptorQueue::empty` (disruptor_queue.hpp lines 169-172). -/
def QueueState.emptyQ {T : Type} {Size : Nat} (s : QueueState T Size) : Bool :=
  decide (s.read_sequence ≥ s.write_sequence)

/-- `DisruptorQueue::size` (disruptor_queue.hpp lines 174-178): difference of
the sequence counters, clamped to zero when momentarily inconsistent. -/
def QueueState.sizeQ {T : Type} {Size : Nat} (s : QueueState T Size) : Nat :=
  if s.write_sequence ≥ s.read_sequence then s.write_sequence - s.read_sequence else 0

/-- `DisruptorQueue::capacity`. -/
def QueueState.capacity {T : Type} {Size : Nat} (_ : QueueState T Size) : Nat := Size

/-- `DisruptorQueue::resetStats` (disruptor_queue.hpp lines 203-207). -/
def QueueState.resetStats {T : Type} {Size : Nat} (s : QueueState T Size) : QueueState T Size :=
  { s with total_published := 0, total_consumed := 0, failed_publishes := 0 }

/-- One sequential operation on the queue: a `try_publish` of an item or a
`try_consume`. -/
inductive QOp (T : Type) where
  | pub (item : T)
  | con
deriving DecidableEq

/-- Observation returned by one queue operation: the `Bool` of `try_publish`
or the `Option T` of `try_consume`. -/
inductive QObs (T : Type) where
  | pubR (ok : Bool)
  | conR (r : Option T)
deriving DecidableEq

/-- Run a sequence of operations on the queue, collecting the observations. -/
def QueueState.runOps {T : Type} [Inhabited T] {Size : Nat} :
    QueueState T Size → List (QOp T) → QueueState T Size × List (QObs T)
  | s, [] => (s, [])
  | s, QOp.pub item :: rest =>
      let r := s.try_publish item
      let rec' := r.2.runOps rest
      (rec'.1, QObs.pubR r.1 :: rec'.2)
  | s, QOp.con :: rest =>
      let r := s.try_consume
      let rec' := r.2.runOps rest
      (rec'.1, QObs.conR r.1 :: rec'.2)

/-- Publish a list of items one after the other (no interleaved consumption),
collecting each `try_publish` result. -/
def QueueState.publishList {T : Type} {Size : Nat} :
    QueueState T Size → List T → QueueState T Size × List Bool
  | s, [] => (s, [])
  | s, x :: xs =>
      let r := s.try_publish x
      let rec' := r.2.publishList xs
      (rec'.1, r.1 :: rec'.2)

/-- Consume `n` times in a row, collecting each `try_consume` result. -/
def QueueState.consumeN {T : Type} [Inhabited T] {Size : Nat} :
    QueueState T Size → Nat → QueueState T Size × List (Option T)
  | s, 0 => (s, [])
  | s, n + 1 =>
      let r := s.try_consume
      let rec' := r.2.consumeN n
      (rec'.1, r.1 :: rec'.2)

/-- Sequential state invariant of the queue (established below for every
state reachable from `QueueState.init`): the buffer keeps its length, the
read sequence never passes the write sequence, the queue never holds more
than `Size` items, and each cached counter lags its true counter. -/
def QueueState.Inv {T : Type} {Size : Nat} (s : QueueState T Size) : Prop :=
  s.buffer.length = Size ∧
  s.read_sequence ≤ s.write_sequence ∧
  s.write_sequence ≤ s.read_sequence + Size ∧
  s.cached_read_sequence ≤ s.read_sequence ∧
  s.cached_write_sequence ≤ s.write_sequence

/-- Abstraction to the list of currently unconsumed items, oldest first:
the buffer slots at positions `read_sequence mod Size` through
`(write_sequence - 1) mod Size`. -/
def QueueState.absList {T : Type} [Inhabited T] {Size : Nat} (s : QueueState T Size) : List T :=
  (List.range (s.write_sequence - s.read_sequence)).map
    (fun i => s.buffer.getD ((s.read_sequence + i) % Size) default)

/-- Modelled from the spec: the bounded FIFO queue reference model for the
refinement claim — a list with enqueue at the back, rejected when the list
already holds `N` items. -/
def fifoPush {T : Type} (N : Nat) (q : List T) (x : T) : Bool × List T :=
  if q.length < N then (true, q ++ [x]) else (false, q)

/-- Modelled from the spec: dequeue at the front of the FIFO reference model. -/
def fifoPop {T : Type} (q : List T) : Option T × List T :=
  match q with
  | [] => (none, [])
  | x :: xs => (some x, xs)

/-- Modelled from the spec: run a sequence of operations on the FIFO
reference model, collecting the observations. -/
def fifoRun {T : Type} (N : Nat) : List T → List (QOp T) → List T × List (QObs T)
  | q, [] => (q, [])
  | q, QOp.pub item :: rest =>
      let r := fifoPush N q item
      let rec' := fifoRun N r.2 rest
      (rec'.1, QObs.pubR r.1 :: rec'.2)
  | q, QOp.con :: rest =>
      let r := fifoPop q
      let rec' := fifoRun N r.2 rest
      (rec'.1, QObs.conR r.1 :: rec'.2)

/-! ## Event model (src/include/core/event_types.hpp)

Each event struct carries the `Event` base fields `timestamp` (nanosecond
count, `std::chrono::nanoseconds`, i.e. a signed 64-bit count) and
`sequence_id` (`uint64_t`).  `double` fields are modelled as `Rat`.  The
C++ field `open` is called `openPrice` here because `open` is a Lean
keyword. -/

structure MarketEvent where
  timestamp : Int
  sequence_id : Nat
  symbol : String
  openPrice : Rat
  high : Rat
  low : Rat
  close : Rat
  volume : Rat
  bid : Rat
  ask : Rat
  bid_size : Rat
  ask_size : Rat
deriving DecidableEq

/-- Default-constructed `MarketEvent` (event_types.hpp lines 63-64). -/
instance : Inhabited MarketEvent :=
  ⟨{ timestamp := 0, sequence_id := 0, symbol := "", openPrice := 0, high := 0,
     low := 0, close := 0, volume := 0, bid := 0, ask := 0, bid_size := 0,
     ask_size := 0 }⟩

/-- `MarketEvent::validate` (event_types.hpp lines 69-82); the base check
`Event::validate()` is `sequence_id > 0`. -/
def MarketEvent.validate (e : MarketEvent) : Bool :=
  decide (0 < e.sequence_id) && !e.symbol.isEmpty &&
  decide (e.low ≤ e.high) &&
  decide (e.openPrice ≤ e.high) && decide (e.close ≤ e.high) &&
  decide (e.low ≤ e.openPrice) && decide (e.low ≤ e.close) &&
  decide (e.bid ≤ e.ask) && decide (0 < e.bid) && decide (0 < e.ask) &&
  decide (0 ≤ e.volume)

/-- `SignalEvent::Direction` (event_types.hpp line 91). -/
inductive SignalDirection where
  | LONG
  | SHORT
  | EXIT
  | FLAT
deriving DecidableEq

structure SignalEvent where
  timestamp : Int
  sequence_id : Nat
  symbol : String
  direction : SignalDirection
  strength : Rat
  strategy_id : String
  metadata : List (String × Rat)
deriving DecidableEq

/-- Default-constructed `SignalEvent` (event_types.hpp line 97). -/
instance : Inhabited SignalEvent :=
  ⟨{ timestamp := 0, sequence_id := 0, symbol := "",
     direction := SignalDirection.FLAT, strength := 0, strategy_id := "",
     metadata := [] }⟩

/-- `SignalEvent::validate` (event_types.hpp lines 101-109). -/
def SignalEvent.validate (e : SignalEvent) : Bool :=
  decide (0 < e.sequence_id) && !e.symbol.isEmpty &&
  decide (0 ≤ e.strength) && decide (e.strength ≤ 1)

/-- `OrderEvent::Type` (event_types.hpp line 118). -/
inductive OrderType where
  | MARKET
  | LIMIT
  | STOP
  | STOP_LIMIT
deriving DecidableEq

/-- `OrderEvent::Direction` (event_types.hpp line 119). -/
inductive OrderDirection where
  | BUY
  | SELL
deriving DecidableEq

/-- `OrderEvent::TimeInForce` (event_types.hpp line 120). -/
inductive TimeInForce where
  | DAY
  | GTC
  | IOC
  | FOK
deriving DecidableEq

structure OrderEvent where
  timestamp : Int
  sequence_id : Nat
  symbol : String
  order_type : OrderType
  direction : OrderDirection
  quantity : Int
  price : Rat
  stop_price : Rat
  tif : TimeInForce
  order_id : String
  portfolio_id : String
deriving DecidableEq

/-- Default-constructed `OrderEvent` (event_types.hpp lines 130-132). -/
instance : Inhabited OrderEvent :=
  ⟨{ timestamp := 0, sequence_id := 0, symbol := "",
     order_type := OrderType.MARKET, direction := OrderDirection.BUY,
     quantity := 0, price := 0, stop_price := 0, tif := TimeInForce.DAY,
     order_id := "", portfolio_id := "" }⟩

/-- `OrderEvent::validate` (event_types.hpp lines 136-150): basic fields,
then `price > 0` required unless the order type is `MARKET`. -/
def OrderEvent.validate (e : OrderEvent) : Bool :=
  if decide (0 < e.sequence_id) && !e.symbol.isEmpty &&
     decide (0 < e.quantity) && !e.order_id.isEmpty then
    if e.order_type ≠ OrderType.MARKET && decide (e.price ≤ 0) then
      false
    else
      true
  else
    false

structure FillEvent where
  timestamp : Int
  sequence_id : Nat
  symbol : String
  quantity : Int
  fill_price : Rat
  commission : Rat
  slippage : Rat
  order_id : String
  exchange : String
  is_buy : Bool
deriving DecidableEq

/-- Default-constructed `FillEvent` (event_types.hpp lines 167-168). -/
instance : Inhabited FillEvent :=
  ⟨{ timestamp := 0, sequence_id := 0, symbol := "", quantity := 0,
     fill_price := 0, commission := 0, slippage := 0, order_id := "",
     exchange := "", is_buy := true }⟩

/-- `FillEvent::validate` (event_types.hpp lines 172-182). -/
def FillEvent.validate (e : FillEvent) : Bool :=
  decide (0 < e.sequence_id) && !e.symbol.isEmpty &&
  decide (0 < e.quantity) && decide (0 < e.fill_price) &&
  !e.order_id.isEmpty

/-- `RiskEvent::Type` (event_types.hpp line 190). -/
inductive RiskType where
  | MARGIN_CALL
  | STOP_LOSS
  | POSITION_LIMIT
  | DRAWDOWN_LIMIT
deriving DecidableEq

structure RiskEvent where
  timestamp : Int
  sequence_id : Nat
  risk_type : RiskType
  message : String
  current_value : Rat
  limit_value : Rat
deriving DecidableEq

/-- Default-constructed `RiskEvent` (event_types.hpp lines 196-197). -/
instance : Inhabited RiskEvent :=
  ⟨{ timestamp := 0, sequence_id := 0, risk_type := RiskType.MARGIN_CALL,
     message := "", current_value := 0, limit_value := 0 }⟩

/-- `RiskEvent::validate` (event_types.hpp lines 202-208). -/
def RiskEvent.validate (e : RiskEvent) : Bool :=
  if !(decide (0 < e.sequence_id)) || e.message.isEmpty then false else true

/-- `EventVariant` (event_types.hpp line 215): the closed tagged union of the
five event kinds. -/
inductive EventVariant where
  | market (e : MarketEvent)
  | signal (e : SignalEvent)
  | order (e : OrderEvent)
  | fill (e : FillEvent)
  | risk (e : RiskEvent)
deriving DecidableEq

/-- Default-constructed `std::variant` holds a default-constructed value of
its first alternative, `MarketEvent`. -/
instance : Inhabited EventVariant := ⟨EventVariant.market default⟩

/-- `validateEvent` (event_types.hpp lines 235-237): visit the variant and
call the per-variant `validate()`. -/
def validateEvent : EventVariant → Bool
  | EventVariant.market e => e.validate
  | EventVariant.signal e => e.validate
  | EventVariant.order e => e.validate
  | EventVariant.fill e => e.validate
  | EventVariant.risk e => e.validate

/-- `getEventSequenceId` (event_types.hpp lines 245-247). -/
def getEventSequenceId : EventVariant → Nat
  | EventVariant.market e => e.sequence_id
  | EventVariant.signal e => e.sequence_id
  | EventVariant.order e => e.sequence_id
  | EventVariant.fill e => e.sequence_id
  | EventVariant.risk e => e.sequence_id

/-- The variant-specific part of each validity predicate: everything the
variant's `validate()` checks beyond the base `Event::validate()` check
`sequence_id > 0` (spec section 3). -/
def variantPredicate : EventVariant → Bool
  | EventVariant.market e =>
      !e.symbol.isEmpty &&
      decide (e.low ≤ e.high) &&
      decide (e.openPrice ≤ e.high) && decide (e.close ≤ e.high) &&
      decide (e.low ≤ e.openPrice) && decide (e.low ≤ e.close) &&
      decide (e.bid ≤ e.ask) && decide (0 < e.bid) && decide (0 < e.ask) &&
      decide (0 ≤ e.volume)
  | EventVariant.signal e =>
      !e.symbol.isEmpty && decide (0 ≤ e.strength) && decide (e.strength ≤ 1)
  | EventVariant.order e =>
      !e.symbol.isEmpty && decide (0 < e.quantity) && !e.order_id.isEmpty &&
      (decide (e.order_type = OrderType.MARKET) || decide (0 < e.price))
  | EventVariant.fill e =>
      !e.symbol.isEmpty && decide (0 < e.quantity) &&
      decide (0 < e.fill_price) && !e.order_id.isEmpty
  | EventVariant.risk e => !e.message.isEmpty

/-! ## Publish-boundary helpers (src/include/event_system.hpp lines 366-412)

The collaborator base classes guard every publication into the shared ring
buffer with the event's `validate()`:
`if (event_queue_ && signal.validate()) event_queue_->publish(signal);`.
The blocking `publish` spin-retries `try_publish`; with no concurrent
consumer a retry repeats the identical pure step, so it is modelled by a
single `try_publish` attempt.  `event_queue_` may be null (`Option`). -/

def emitSignal {Size : Nat} (event_queue : Option (QueueState EventVariant Size))
    (signal : SignalEvent) : Option (QueueState EventVariant Size) :=
  match event_queue with
  | none => none
  | some q =>
      if signal.validate then some (q.try_publish (EventVariant.signal signal)).2
      else some q

def emitOrder {Size : Nat} (event_queue : Option (QueueState EventVariant Size))
    (order : OrderEvent) : Option (QueueState EventVariant Size) :=
  match event_queue with
  | none => none
  | some q =>
      if order.validate then some (q.try_publish (EventVariant.order order)).2
      else some q

def emitFill {Size : Nat} (event_queue : Option (QueueState EventVariant Size))
    (fill : FillEvent) : Option (QueueState EventVariant Size) :=
  match event_queue with
  | none => none
  | some q =>
      if fill.validate then some (q.try_publish (EventVariant.fill fill)).2
      else some q

/-! ## Collaborator interfaces and EventDispatcher
(src/include/interfaces/*.hpp, src/include/engine/event_dispatcher.hpp)

A collaborator method call may publish events into the shared queue (of
type `Q`) and may throw a `std::exception`; it is modelled as a function
returning the resulting queue together with `some thrown` when it threw.
Effects a collaborator performed before throwing persist, as in C++. -/

/-- A thrown C++ exception derived from `std::exception`. -/
inductive CppError where
  | stdException (what : String)
deriving DecidableEq

/-- Behaviour of an `IStrategy` implementation at the dispatch boundary. -/
structure StrategyM (Q : Type) where
  calculateSignals : MarketEvent → Q → Q × Option CppError

/-- Behaviour of an `IPortfolio` implementation at the dispatch boundary. -/
structure PortfolioM (Q : Type) where
  updateMarket : MarketEvent → Q → Q × Option CppError
  updateSignal : SignalEvent → Q → Q × Option CppError
  updateFill : FillEvent → Q → Q × Option CppError

/-- Behaviour of an `IExecutionHandler` implementation at the dispatch
boundary. -/
structure ExecutionM (Q : Type) where
  executeOrder : OrderEvent → Q → Q × Option CppError

/-- `EventDispatcher` (event_dispatcher.hpp lines 21-30): the three
collaborator pointers (any may be null) and the error counter `errors_`. -/
structure EventDispatcher (Q : Type) where
  strategy : Option (StrategyM Q)
  portfolio : Option (PortfolioM Q)
  execution : Option (ExecutionM Q)
  errors : Nat

/-- A collaborator method invocation performed during dispatch (recorded
even when the call throws, since the call did happen). -/
inductive CollabCall where
  | updateMarket (e : MarketEvent)
  | calculateSignals (e : MarketEvent)
  | updateSignal (e : SignalEvent)
  | executeOrder (e : OrderEvent)
  | updateFill (e : FillEvent)
deriving DecidableEq

/-- `EventDispatcher::operator()(const MarketEvent&)` (event_dispatcher.hpp
lines 32-44): inside one try block, re-validate (invalid counts an error and
routes nowhere), then `portfolio_->updateMarket` if the portfolio is set,
then `strategy_->calculateSignals` if the strategy is set; a throw from
either call is caught at the boundary and counted once, skipping the rest of
the block. -/
def EventDispatcher.dispatchMarket {Q : Type} (d : EventDispatcher Q) (q : Q)
    (e : MarketEvent) : EventDispatcher Q × Q × List CollabCall :=
  if e.validate = false then
    ({ d with errors := d.errors + 1 }, q, [])
  else
    match d.portfolio with
    | none =>
        match d.strategy with
        | none => (d, q, [])
        | some st =>
            let r := st.calculateSignals e q
            match r.2 with
            | some _ => ({ d with errors := d.errors + 1 }, r.1, [CollabCall.calculateSignals e])
            | none => (d, r.1, [CollabCall.calculateSignals e])
    | some p =>
        let rp := p.updateMarket e q
        match rp.2 with
        | some _ => ({ d with errors := d.errors + 1 }, rp.1, [CollabCall.updateMarket e])
        | none =>
            match d.strategy with
            | none => (d, rp.1, [CollabCall.updateMarket e])
            | some st =>
                let rs := st.calculateSignals e rp.1
                match rs.2 with
                | some _ =>
                    ({ d with errors := d.errors + 1 }, rs.1,
                     [CollabCall.updateMarket e, CollabCall.calculateSignals e])
                | none =>
                    (d, rs.1,
                     [CollabCall.updateMarket e, CollabCall.calculateSignals e])

/-- `EventDispatcher::operator()(const SignalEvent&)` (event_dispatcher.hpp
lines 46-56). -/
def EventDispatcher.dispatchSignal {Q : Type} (d : EventDispatcher Q) (q : Q)
    (e : SignalEvent) : EventDispatcher Q × Q × List CollabCall :=
  if e.validate = false then
    ({ d with errors := d.errors + 1 }, q, [])
  else
    match d.portfolio with
    | none => (d, q, [])
    | some p =>
        let r := p.updateSignal e q
        match r.2 with
        | some _ => ({ d with errors := d.errors + 1 }, r.1, [CollabCall.updateSignal e])
        | none => (d, r.1, [CollabCall.updateSignal e])

/-- `EventDispatcher::operator()(const OrderEvent&)` (event_dispatcher.hpp
lines 58-68). -/
def EventDispatcher.dispatchOrder {Q : Type} (d : EventDispatcher Q) (q : Q)
    (e : OrderEvent) : EventDispatcher Q × Q × List CollabCall :=
  if e.validate = false then
    ({ d with errors := d.errors + 1 }, q, [])
  else
    match d.execution with
    | none => (d, q, [])
    | some ex =>
        let r := ex.executeOrder e q
        match r.2 with
        | some _ => ({ d with errors := d.errors + 1 }, r.1, [CollabCall.executeOrder e])
        | none => (d, r.1, [CollabCall.executeOrder e])

/-- `EventDispatcher::operator()(const FillEvent&)` (event_dispatcher.hpp
lines 70-80). -/
def EventDispatcher.dispatchFill {Q : Type} (d : EventDispatcher Q) (q : Q)
    (e : FillEvent) : EventDispatcher Q × Q × List CollabCall :=
  if e.validate = false then
    ({ d with errors := d.errors + 1 }, q, [])
  else
    match d.portfolio with
    | none => (d, q, [])
    | some p =>
        let r := p.updateFill e q
        match r.2 with
        | some _ => ({ d with errors := d.errors + 1 }, r.1, [CollabCall.updateFill e])
        | none => (d, r.1, [CollabCall.updateFill e])

/-- `EventDispatcher::operator()(const RiskEvent&)` (event_dispatcher.hpp
lines 82-88): validate only, no collaborator call. -/
def EventDispatcher.dispatchRisk {Q : Type} (d : EventDispatcher Q) (q : Q)
    (e : RiskEvent) : EventDispatcher Q × Q × List CollabCall :=
  if e.validate = false then
    ({ d with errors := d.errors + 1 }, q, [])
  else
    (d, q, [])

/-- `std::visit(dispatcher, event)`: route the variant to the matching
`operator()` overload. -/
def EventDispatcher.dispatch {Q : Type} (d : EventDispatcher Q) (q : Q) :
    EventVariant → EventDispatcher Q × Q × List CollabCall
  | EventVariant.market e => d.dispatchMarket q e
  | EventVariant.signal e => d.dispatchSignal q e
  | EventVariant.order e => d.dispatchOrder q e
  | EventVariant.fill e => d.dispatchFill q e
  | EventVariant.risk e => d.dispatchRisk q e

/-- Dispatch a list of events one after the other, collecting the per-event
collaborator call trace. -/
def EventDispatcher.dispatchAll {Q : Type} :
    EventDispatcher Q → Q → List EventVariant →
    EventDispatcher Q × Q × List (List CollabCall)
  | d, q, [] => (d, q, [])
  | d, q, ev :: rest =>
      let r := d.dispatch q ev
      let rec' := EventDispatcher.dispatchAll r.1 r.2.1 rest
      (rec'.1, rec'.2.1, r.2.2 :: rec'.2.2)

/-! ## EventPool (src/include/concurrent/event_pool.hpp)

`EventPool<T>` holds `POOL_SIZE = 1024` pre-constructed objects, a rotating
probe counter `next_free_`, the per-slot `in_use_` flags and three
statistics counters.  The development is parametric in the pool size `N`
(the source instantiates `N = POOL_SIZE`); an acquired object is identified
by its slot index (the source returns `&pool_[idx]`, and `release` recovers
`idx = obj - pool_.data()`). -/

def POOL_SIZE : Nat := 1024

structure PoolState (T : Type) (N : Nat) where
  pool : List T
  next_free : Nat
  in_use : List Bool
  allocations : Nat
  deallocations : Nat
  pool_misses : Nat

/-- Freshly constructed `EventPool`: default-constructed objects, all
`in_use_` flags false (event_pool.hpp lines 29-33). -/
def PoolState.init (T : Type) [Inhabited T] (N : Nat) : PoolState T N :=
  { pool := List.replicate N default
    next_free := 0
    in_use := List.replicate N false
    allocations := 0
    deallocations := 0
    pool_misses := 0 }

/-- The probe loop of `EventPool::acquire` (event_pool.hpp lines 36-44),
with `attempts` probes left: take `idx = next_free_++ mod N`; if the slot's
`in_use_` flag is clear, set it (the sequential effect of the successful
`compare_exchange_strong`) and hand the slot out; otherwise probe again.
An out-of-range read of the flag array counts as in use (it cannot happen
once the length invariant holds and `N > 0`). -/
def PoolState.acquireAux {T : Type} {N : Nat} :
    PoolState T N → Nat → Option Nat × PoolState T N
  | s, 0 => (none, { s with pool_misses := s.pool_misses + 1 })
  | s, attempts + 1 =>
      let idx := s.next_free % N
      let s1 : PoolState T N := { s with next_free := s.next_free + 1 }
      if s1.in_use.getD idx true = false then
        (some idx, { s1 with
                      in_use := s1.in_use.set idx true
                      allocations := s1.allocations + 1 })
      else
        s1.acquireAux attempts

/-- `EventPool::acquire` (event_pool.hpp lines 35-47): at most
`POOL_SIZE * 2` probe attempts, then give up with a pool miss. -/
def PoolState.acquire {T : Type} {N : Nat} (s : PoolState T N) :
    Option Nat × PoolState T N :=
  s.acquireAux (N * 2)

/-- `EventPool::release` (event_pool.hpp lines 49-57): ignore a null
pointer; for a pointer into the pool (`idx < N`), reset the object to its
default-constructed state (`*obj = T{}`) and clear the slot's flag. -/
def PoolState.release {T : Type} [Inhabited T] {N : Nat} (s : PoolState T N)
    (obj : Option Nat) : PoolState T N :=
  match obj with
  | none => s
  | some idx =>
      if idx < N then
        { s with
           pool := s.pool.set idx default
           in_use := s.in_use.set idx false
           deallocations := s.deallocations + 1 }
      else s

/-- Length invariant of the pool arrays (`std::array`s of size `N`). -/
def PoolState.Inv {T : Type} {N : Nat} (s : PoolState T N) : Prop :=
  s.pool.length = N ∧ s.in_use.length = N

/-! ## Cerebro (src/include/engine/cerebro.hpp)

The engine owns one `DisruptorQueue<EventVariant, QUEUE_SIZE>` with
`QUEUE_SIZE = 65536`; the development is parametric in the queue size.  The
`IDataHandler` collaborator is modelled at its interface boundary: the data
it still has to deliver is the list `pending` of `updateBars` effects (each
publishes zero or more Market events into the queue), and `hasMoreData()`
is `pending ≠ []`.  Wall-clock latency bookkeeping inside the loop is not
modelled; the latency counters are carried untouched by `run`. -/

def QUEUE_SIZE : Nat := 65536

/-- Behaviour of an `IDataHandler` implementation at the interface
boundary. -/
structure DataHandlerM (Q : Type) where
  pending : List (Q → Q)

/-- `Cerebro::Config` (cerebro.hpp lines 50-55). -/
structure CerebroConfig where
  initial_capital : Rat
  enable_risk_checks : Bool
  max_events_per_tick : Nat
  heartbeat_interval_ms : Nat
deriving DecidableEq

/-- The in-class default member values of `Cerebro::Config`. -/
def defaultConfig : CerebroConfig :=
  { initial_capital := 100000
    enable_risk_checks := true
    max_events_per_tick := 1000
    heartbeat_interval_ms := 0 }

/-- `UINT64_MAX`, the initial value of `min_latency_ns_`. -/
def UINT64_MAX : Nat := 2 ^ 64 - 1

/-- State of a `Cerebro` engine (cerebro.hpp lines 28-55). -/
structure CerebroState (Size : Nat) where
  event_queue : QueueState EventVariant Size
  data_handler : Option (DataHandlerM (QueueState EventVariant Size))
  strategy : Option (StrategyM (QueueState EventVariant Size))
  portfolio : Option (PortfolioM (QueueState EventVariant Size))
  execution_handler : Option (ExecutionM (QueueState EventVariant Size))
  running : Bool
  initialized : Bool
  events_processed : Nat
  total_latency_ns : Nat
  max_latency_ns : Nat
  min_latency_ns : Nat
  config : CerebroConfig

/-- Errors surfaced out of the engine: the `BacktestException` carrying its
message, and the crash from calling through an unset collaborator pointer
(undefined behaviour in C++, modelled as a distinct fatal outcome). -/
inductive EngineError where
  | backtestException (msg : String)
  | nullDeref
deriving DecidableEq

/-- Default-constructed `Cerebro`. -/
def CerebroState.mk0 (Size : Nat) : CerebroState Size :=
  { event_queue := QueueState.init EventVariant Size
    data_handler := none
    strategy := none
    portfolio := none
    execution_handler := none
    running := false
    initialized := false
    events_processed := 0
    total_latency_ns := 0
    max_latency_ns := 0
    min_latency_ns := UINT64_MAX
    config := defaultConfig }

/-- `Cerebro::setDataHandler` (cerebro.hpp lines 66-69): rejected while
running.  The queue-handle injection performed by the setters
(`setEventQueue(&event_queue_)`) is implicit here: the modelled collaborator
functions receive the queue state explicitly at each call. -/
def CerebroState.setDataHandler {Size : Nat} (s : CerebroState Size)
    (handler : Option (DataHandlerM (QueueState EventVariant Size))) :
    Except EngineError (CerebroState Size) :=
  if s.running then
    Except.error (EngineError.backtestException "Cannot change components while running")
  else
    Except.ok { s with data_handler := handler }

/-- `Cerebro::setStrategy` (cerebro.hpp lines 71-77). -/
def CerebroState.setStrategy {Size : Nat} (s : CerebroState Size)
    (strategy : Option (StrategyM (QueueState EventVariant Size))) :
    Except EngineError (CerebroState Size) :=
  if s.running then
    Except.error (EngineError.backtestException "Cannot change components while running")
  else
    Except.ok { s with strategy := strategy }

/-- `Cerebro::setPortfolio` (cerebro.hpp lines 79-85). -/
def CerebroState.setPortfolio {Size : Nat} (s : CerebroState Size)
    (portfolio : Option (PortfolioM (QueueState EventVariant Size))) :
    Except EngineError (CerebroState Size) :=
  if s.running then
    Except.error (EngineError.backtestException "Cannot change components while running")
  else
    Except.ok { s with portfolio := portfolio }

/-- `Cerebro::setExecutionHandler` (cerebro.hpp lines 87-93). -/
def CerebroState.setExecutionHandler {Size : Nat} (s : CerebroState Size)
    (handler : Option (ExecutionM (QueueState EventVariant Size))) :
    Except EngineError (CerebroState Size) :=
  if s.running then
    Except.error (EngineError.backtestException "Cannot change components while running")
  else
    Except.ok { s with execution_handler := handler }

/-- One collaborator lifecycle call made by `Cerebro::initialize`. -/
inductive InitCall where
  | dataHandlerInit
  | portfolioInit (initial_capital : Rat)
  | strategyInit
  | executionInit
deriving DecidableEq

/-- `Cerebro::initialize` (cerebro.hpp lines 111-132): a no-op when already
initialized; otherwise requires all four collaborators, initializes them in
order (data, portfolio with the configured capital, strategy, execution),
resets the aggregate statistics and the queue statistics, and sets the
initialized flag.  The returned list records the collaborator lifecycle
calls made. -/
def CerebroState.initializeAll {Size : Nat} (s : CerebroState Size) :
    Except EngineError (CerebroState Size × List InitCall) :=
  if s.initialized then
    Except.ok (s, [])
  else if s.data_handler.isNone || s.strategy.isNone || s.portfolio.isNone ||
          s.execution_handler.isNone then
    Except.error (EngineError.backtestException "All components must be set before initialization")
  else
    Except.ok
      ({ s with
          events_processed := 0
          total_latency_ns := 0
          max_latency_ns := 0
          min_latency_ns := UINT64_MAX
          event_queue := s.event_queue.resetStats
          initialized := true },
       [InitCall.dataHandlerInit, InitCall.portfolioInit s.config.initial_capital,
        InitCall.strategyInit, InitCall.executionInit])

/-- The inner drain loop of one tick of `Cerebro::run` (cerebro.hpp lines
169-198): while the queue is non-empty and fewer than `max_events_per_tick`
events were processed this tick, consume one event and dispatch it.  The
first argument is the remaining per-tick budget
(`max_events_per_tick - events_this_tick`); the final `Nat` is the running
`events_this_tick` counter. -/
def processTick {Size : Nat} :
    Nat → EventDispatcher (QueueState EventVariant Size) →
    QueueState EventVariant Size → Nat →
    EventDispatcher (QueueState EventVariant Size) × QueueState EventVariant Size × Nat
  | 0, d, q, n => (d, q, n)
  | budget + 1, d, q, n =>
      if q.emptyQ then
        (d, q, n)
      else
        match q.try_consume with
        | (none, q') => (d, q', n)
        | (some ev, q') =>
            let r := d.dispatch q' ev
            processTick budget r.1 r.2.1 (n + 1)

/-- The main heartbeat loop of `Cerebro::run` (cerebro.hpp lines 162-209):
while there is more data, pull one market update (`updateBars`) and drain
the queue up to the per-tick cap.  Accumulates the total number of events
dispatched and of bars pulled. -/
def runLoop {Size : Nat} (cfg : CerebroConfig) :
    List (QueueState EventVariant Size → QueueState EventVariant Size) →
    EventDispatcher (QueueState EventVariant Size) →
    QueueState EventVariant Size → Nat → Nat →
    EventDispatcher (QueueState EventVariant Size) × QueueState EventVariant Size × Nat × Nat
  | [], d, q, ep, bp => (d, q, ep, bp)
  | upd :: rest, d, q, ep, bp =>
      let q1 := upd q
      let r := processTick cfg.max_events_per_tick d q1 0
      runLoop cfg rest r.1 r.2.1 (ep + r.2.2) (bp + 1)

/-- Observable summary of one `run` call: how many market updates were
pulled from the data source and how many events were consumed from the
queue and dispatched. -/
structure RunTrace where
  bars_pulled : Nat
  events_dispatched : Nat
deriving DecidableEq

/-- The body of `Cerebro::run` after the auto-initialization (cerebro.hpp
lines 155-213): set `running_`, build the dispatcher from the collaborator
pointers, loop over the data, then clear `running_`.  Dereferencing an
unset data handler is the `nullDeref` outcome. -/
def CerebroState.runBody {Size : Nat} (s : CerebroState Size) :
    CerebroState Size × RunTrace × Option EngineError :=
  let s1 : CerebroState Size := { s with running := true }
  match s1.data_handler with
  | none => (s1, { bars_pulled := 0, events_dispatched := 0 }, some EngineError.nullDeref)
  | some dh =>
      let d0 : EventDispatcher (QueueState EventVariant Size) :=
        { strategy := s1.strategy, portfolio := s1.portfolio,
          execution := s1.execution_handler, errors := 0 }
      let r := runLoop s1.config dh.pending d0 s1.event_queue 0 0
      ({ s1 with
          event_queue := r.2.1
          data_handler := some { pending := [] }
          events_processed := s1.events_processed + r.2.2.1
          running := false },
       { bars_pulled := r.2.2.2, events_dispatched := r.2.2.1 },
       none)

/-- `Cerebro::run` (cerebro.hpp lines 150-213): auto-initialize when not
yet initialized — a configuration error thrown there propagates to the
caller with the engine state untouched (the throw happens before any
mutation) — then run the main loop. -/
def CerebroState.run {Size : Nat} (s : CerebroState Size) :
    CerebroState Size × RunTrace × Option EngineError :=
  if s.initialized = false then
    match s.initializeAll with
    | Except.error e => (s, { bars_pulled := 0, events_dispatched := 0 }, some e)
    | Except.ok r => r.1.runBody
  else
    s.runBody

/-! ## Concrete sample data used by witness statements -/

/-- A bar whose high is below its low. -/
def badBar : MarketEvent :=
  { timestamp := 0, sequence_id := 1, symbol := "AAPL", openPrice := 1, high := 1,
    low := 2, close := 1, volume := 0, bid := 1, ask := 1, bid_size := 100,
    ask_size := 100 }

/-- A bar meeting all the validity conditions. -/
def goodBar : MarketEvent :=
  { timestamp := 0, sequence_id := 1, symbol := "AAPL", openPrice := 10, high := 11,
    low := 9, close := 10, volume := 1000, bid := 10, ask := 11,
    bid_size := 100, ask_size := 100 }

/-- A strategy whose `calculateSignals` always throws. -/
def throwingStrategy : StrategyM Unit :=
  { calculateSignals := fun _ q => (q, some (CppError.stdException "boom")) }

/-- A portfolio whose methods always return normally. -/
def quietPortfolio : PortfolioM Unit :=
  { updateMarket := fun _ q => (q, none)
    updateSignal := fun _ q => (q, none)
    updateFill := fun _ q => (q, none) }

/-- A dispatcher over the throwing strategy and the quiet portfolio. -/
def throwingDispatcher : EventDispatcher Unit :=
  { strategy := some throwingStrategy
    portfolio := some quietPortfolio
    execution := none
    errors := 0 }

/-- A data handler with no pending data. -/
def cexDataHandler : DataHandlerM (QueueState EventVariant 4) := { pending := [] }

/-- A strategy that does nothing. -/
def cexStrategy : StrategyM (QueueState EventVariant 4) :=
  { calculateSignals := fun _ q => (q, none) }

/-- A portfolio that does nothing. -/
def cexPortfolio : PortfolioM (QueueState EventVariant 4) :=
  { updateMarket := fun _ q => (q, none)
    updateSignal := fun _ q => (q, none)
    updateFill := fun _ q => (q, none) }

/-- An execution handler that does nothing. -/
def cexExecution : ExecutionM (QueueState EventVariant 4) :=
  { executeOrder := fun _ q => (q, none) }

/-- Extract the success value of a setter call (the chain below only makes
calls that succeed, as the accompanying theorem proves). -/
def exceptGetD {E A : Type} (dflt : A) : Except E A → A
  | Except.ok a => a
  | Except.error _ => dflt

/-- Extract the post-state of an `initialize` call. -/
def initGetD {Size : Nat} (dflt : CerebroState Size) :
    Except EngineError (CerebroState Size × List InitCall) → CerebroState Size
  | Except.ok r => r.1
  | Except.error _ => dflt

/-- The engine built by the public API: construct, set all four
collaborators, initialize. -/
def cexEngine0 : CerebroState 4 := CerebroState.mk0 4

def cexEngine1 : CerebroState 4 :=
  exceptGetD cexEngine0 (cexEngine0.setDataHandler (some cexDataHandler))

def cexEngine2 : CerebroState 4 :=
  exceptGetD cexEngine1 (cexEngine1.setStrategy (some cexStrategy))

def cexEngine3 : CerebroState 4 :=
  exceptGetD cexEngine2 (cexEngine2.setPortfolio (some cexPortfolio))

def cexEngine4 : CerebroState 4 :=
  exceptGetD cexEngine3 (cexEngine3.setExecutionHandler (some cexExecution))

def cexEngine5 : CerebroState 4 := initGetD cexEngine4 cexEngine4.initializeAll

/-- The initialized engine whose data handler is then unset through the
public setter (legal while not running). -/
def cexEngine : CerebroState 4 :=
  exceptGetD cexEngine5 (cexEngine5.setDataHandler none)

/-! ## Queue lemmas -/

/-- The bitmask index computation of the source equals reduction modulo the
capacity, for power-of-two capacities (`static_assert` in the source). -/
theorem mask_eq_mod {Size k : Nat} (hS : Size = 2 ^ k) (x : Nat) :
    x &&& (Size - 1) = x % Size := by
  subst hS
  exact Nat.and_pow_two_sub_one_eq_mod x k

/-- Branch analysis of `try_publish`, assuming the cached read sequence lags
the true one. -/
theorem try_publish_spec {T : Type} {Size : Nat} (s : QueueState T Size) (item : T)
    (hc : s.cached_read_sequence ≤ s.read_sequence) :
    s.try_publish item =
      if s.write_sequence + 1 ≤ s.read_sequence + Size then
        (true,
          { s with
             buffer := s.buffer.set (s.write_sequence &&& (Size - 1)) item
             write_sequence := s.write_sequence + 1
             total_published := s.total_published + 1
             cached_read_sequence :=
               if s.write_sequence + 1 > s.cached_read_sequence + Size then
                 s.read_sequence
               else s.cached_read_sequence })
      else
        (false,
          { s with
             cached_read_sequence := s.read_sequence
             failed_publishes := s.failed_publishes + 1 }) := by
  simp only [QueueState.try_publish]
  split_ifs with h1 h2 h3 <;> first | rfl | omega

/-- Branch analysis of `try_consume`, assuming the cached write sequence
lags the true one. -/
theorem try_consume_spec {T : Type} [Inhabited T] {Size : Nat} (s : QueueState T Size)
    (hc : s.cached_write_sequence ≤ s.write_sequence) :
    s.try_consume =
      if s.read_sequence < s.write_sequence then
        (some (s.buffer.getD (s.read_sequence &&& (Size - 1)) default),
          { s with
             read_sequence := s.read_sequence + 1
             total_consumed := s.total_consumed + 1
             cached_write_sequence :=
               if s.read_sequence ≥ s.cached_write_sequence then
                 s.write_sequence
               else s.cached_write_sequence })
      else
        (none, { s with cached_write_sequence := s.write_sequence }) := by
  simp only [QueueState.try_consume]
  split_ifs with h1 h2 h3 <;> first | rfl | omega

/-- The invariant holds for the freshly constructed queue. -/
theorem inv_init {T : Type} [Inhabited T] (Size : Nat) :
    (QueueState.init T Size).Inv := by
  refine ⟨?_, ?_, ?_, ?_, ?_⟩ <;>
    simp [QueueState.init, QueueState.Inv]

/-- `try_publish` preserves the sequential invariant. -/
theorem inv_try_publish {T : Type} {Size : Nat} {s : QueueState T Size}
    (hinv : s.Inv) (item : T) : (s.try_publish item).2.Inv := by
  obtain ⟨hlen, hrw, hws, hcr, hcw⟩ := hinv
  rw [try_publish_spec s item hcr]
  split_ifs with h1 h2 <;>
    refine ⟨?_, ?_, ?_, ?_, ?_⟩ <;>
      simp [QueueState.Inv, List.length_set, hlen] <;> omega

/-- `try_consume` preserves the sequential invariant. -/
theorem inv_try_consume {T : Type} [Inhabited T] {Size : Nat} {s : QueueState T Size}
    (hinv : s.Inv) : s.try_consume.2.Inv := by
  obtain ⟨hlen, hrw, hws, hcr, hcw⟩ := hinv
  rw [try_consume_spec s hcw]
  split_ifs with h1 h2 <;>
    refine ⟨?_, ?_, ?_, ?_, ?_⟩ <;>
      simp [QueueState.Inv, hlen] <;> omega

/-- Distinct positions whose distance is positive and below the capacity
occupy distinct ring-buffer slots. -/
theorem mod_ne_of_between {a b Size : Nat} (hab : a < b) (hs : b - a < Size) :
    a % Size ≠ b % Size := by
  intro h
  have hdvd : Size ∣ b - a := (Nat.modEq_iff_dvd' hab.le).mp h
  have := Nat.le_of_dvd (by omega) hdvd
  omega

/-- The abstract content has as many items as the sequence-counter gap. -/
theorem absList_length {T : Type} [Inhabited T] {Size : Nat} (s : QueueState T Size) :
    s.absList.length = s.write_sequence - s.read_sequence := by
  simp [QueueState.absList]

/-- The fresh queue is abstractly empty. -/
theorem absList_init (T : Type) [Inhabited T] (Size : Nat) :
    (QueueState.init T Size).absList = [] := by
  simp [QueueState.absList, QueueState.init]

/-- First component of `try_publish`: success exactly when the buffer is
not full. -/
theorem try_publish_fst {T : Type} {Size : Nat} (s : QueueState T Size) (item : T)
    (hc : s.cached_read_sequence ≤ s.read_sequence) :
    (s.try_publish item).1 = decide (s.write_sequence + 1 ≤ s.read_sequence + Size) := by
  rw [try_publish_spec s item hc]
  split_ifs with h <;> simp [h]

/-- Successful `try_publish`: the sequence counters move as published. -/
theorem try_publish_ok_fields {T : Type} {Size : Nat} (s : QueueState T Size) (item : T)
    (hc : s.cached_read_sequence ≤ s.read_sequence)
    (hroom : s.write_sequence + 1 ≤ s.read_sequence + Size) :
    (s.try_publish item).1 = true ∧
    (s.try_publish item).2.write_sequence = s.write_sequence + 1 ∧
    (s.try_publish item).2.read_sequence = s.read_sequence ∧
    (s.try_publish item).2.total_published = s.total_published + 1 := by
  rw [try_publish_spec s item hc, if_pos hroom]
  exact ⟨rfl, rfl, rfl, rfl⟩

/-- Failed `try_publish`: everything but the failure counter and the cached
read sequence is untouched. -/
theorem try_publish_fail_fields {T : Type} {Size : Nat} (s : QueueState T Size) (item : T)
    (hc : s.cached_read_sequence ≤ s.read_sequence)
    (hfull : ¬ s.write_sequence + 1 ≤ s.read_sequence + Size) :
    (s.try_publish item).1 = false ∧
    (s.try_publish item).2.buffer = s.buffer ∧
    (s.try_publish item).2.write_sequence = s.write_sequence ∧
    (s.try_publish item).2.read_sequence = s.read_sequence ∧
    (s.try_publish item).2.failed_publishes = s.failed_publishes + 1 := by
  rw [try_publish_spec s item hc, if_neg hfull]
  exact ⟨rfl, rfl, rfl, rfl, rfl⟩

/-- A successful `try_publish` appends the item to the abstract content. -/
theorem try_publish_absList {T : Type} [Inhabited T] {Size k : Nat} (hS : Size = 2 ^ k)
    {s : QueueState T Size} (hinv : s.Inv) (item : T)
    (hroom : s.write_sequence + 1 ≤ s.read_sequence + Size) :
    (s.try_publish item).2.absList = s.absList ++ [item] := by
  obtain ⟨hlen, hrw, hws, hcr, hcw⟩ := hinv
  have hpos : 0 < Size := by subst hS; positivity
  rw [try_publish_spec s item hcr, if_pos hroom]
  simp only [QueueState.absList, mask_eq_mod hS]
  have hn : s.write_sequence + 1 - s.read_sequence =
      (s.write_sequence - s.read_sequence) + 1 := by omega
  rw [hn, List.range_succ, List.map_append]
  congr 1
  · apply List.map_congr_left
    intro i hi
    have hi' : i < s.write_sequence - s.read_sequence := List.mem_range.mp hi
    have hne : s.write_sequence % Size ≠ (s.read_sequence + i) % Size := by
      refine (mod_ne_of_between (a := s.read_sequence + i) (b := s.write_sequence)
        (by omega) (by omega)).symm
    simp [List.getD_eq_getElem?_getD, List.getElem?_set_ne hne]
  · have hidx : s.read_sequence + (s.write_sequence - s.read_sequence) =
        s.write_sequence := by omega
    simp only [List.map_cons, List.map_nil, hidx]
    have hlt : s.write_sequence % Size < s.buffer.length := by
      rw [hlen]; exact Nat.mod_lt _ hpos
    simp [List.getD_eq_getElem?_getD, List.getElem?_set_self hlt]

/-- A failed `try_publish` leaves the abstract content unchanged. -/
theorem try_publish_fail_absList {T : Type} [Inhabited T] {Size : Nat}
    {s : QueueState T Size} (item : T)
    (hc : s.cached_read_sequence ≤ s.read_sequence)
    (hfull : ¬ s.write_sequence + 1 ≤ s.read_sequence + Size) :
    (s.try_publish item).2.absList = s.absList := by
  rw [try_publish_spec s item hc, if_neg hfull]
  simp [QueueState.absList]

/-- A `try_consume` on a non-empty queue pops the oldest item off the
abstract content. -/
theorem try_consume_absList {T : Type} [Inhabited T] {Size k : Nat} (hS : Size = 2 ^ k)
    {s : QueueState T Size} (hinv : s.Inv) (hne : s.read_sequence < s.write_sequence) :
    s.try_consume.1 = some (s.buffer.getD (s.read_sequence % Size) default) ∧
    s.absList = s.buffer.getD (s.read_sequence % Size) default :: s.try_consume.2.absList := by
  obtain ⟨hlen, hrw, hws, hcr, hcw⟩ := hinv
  rw [try_consume_spec s hcw, if_pos hne]
  refine ⟨by rw [mask_eq_mod hS], ?_⟩
  simp only [QueueState.absList]
  have hn : s.write_sequence - s.read_sequence =
      (s.write_sequence - (s.read_sequence + 1)) + 1 := by omega
  rw [hn, List.range_succ_eq_map, List.map_cons]
  simp only [Nat.add_zero]
  congr 1
  rw [List.map_map]
  apply List.map_congr_left
  intro i _
  simp only [Function.comp]
  congr 2
  omega

/-- A `try_consume` on an empty queue observes nothing and changes neither
the abstract content (empty) nor the counters. -/
theorem try_consume_empty_fields {T : Type} [Inhabited T] {Size : Nat}
    {s : QueueState T Size} (hc : s.cached_write_sequence ≤ s.write_sequence)
    (hge : s.write_sequence ≤ s.read_sequence) :
    s.try_consume.1 = none ∧
    s.try_consume.2.absList = s.absList ∧
    s.try_consume.2.read_sequence = s.read_sequence ∧
    s.try_consume.2.write_sequence = s.write_sequence := by
  rw [try_consume_spec s hc, if_neg (by omega)]
  exact ⟨rfl, by simp [QueueState.absList], rfl, rfl⟩

/-- Successful `try_consume`: the counters move as consumed. -/
theorem try_consume_ok_fields {T : Type} [Inhabited T] {Size : Nat}
    {s : QueueState T Size} (hc : s.cached_write_sequence ≤ s.write_sequence)
    (hne : s.read_sequence < s.write_sequence) :
    s.try_consume.1.isSome = true ∧
    s.try_consume.2.read_sequence = s.read_sequence + 1 ∧
    s.try_consume.2.write_sequence = s.write_sequence ∧
    s.try_consume.2.total_consumed = s.total_consumed + 1 := by
  rw [try_consume_spec s hc, if_pos hne]
  exact ⟨rfl, rfl, rfl, rfl⟩

/-- Simulation of the sequential queue by the bounded FIFO reference model:
running any operation sequence from any invariant-satisfying state produces
the observations the FIFO model produces from the abstract content, and the
final abstract content is the FIFO model's final list. -/
theorem runOps_fifo_sim {T : Type} [Inhabited T] {Size k : Nat} (hS : Size = 2 ^ k) :
    ∀ (ops : List (QOp T)) (s : QueueState T Size), s.Inv →
      (s.runOps ops).2 = (fifoRun Size s.absList ops).2 ∧
      (s.runOps ops).1.absList = (fifoRun Size s.absList ops).1 ∧
      (s.runOps ops).1.Inv := by
  intro ops
  induction ops with
  | nil =>
      intro s hinv
      exact ⟨rfl, rfl, hinv⟩
  | cons op rest ih =>
      intro s hinv
      obtain ⟨hlen, hrw, hws, hcr, hcw⟩ := hinv
      cases op with
      | pub item =>
          by_cases hroom : s.write_sequence + 1 ≤ s.read_sequence + Size
          · have hfst := (try_publish_ok_fields s item hcr hroom).1
            have habs := try_publish_absList hS
              ⟨hlen, hrw, hws, hcr, hcw⟩ item hroom
            have hinv' := inv_try_publish ⟨hlen, hrw, hws, hcr, hcw⟩ item
            have hpush : fifoPush Size s.absList item = (true, s.absList ++ [item]) := by
              unfold fifoPush
              rw [if_pos]
              rw [absList_length]
              omega
            obtain ⟨ihobs, ihabs, ihinv⟩ := ih (s.try_publish item).2 hinv'
            simp only [QueueState.runOps, fifoRun, hpush, hfst]
            rw [habs] at ihobs ihabs
            exact ⟨by rw [ihobs], by rw [ihabs], ihinv⟩
          · have hfail := try_publish_fail_fields s item hcr hroom
            have habs := try_publish_fail_absList item hcr hroom
            have hinv' := inv_try_publish ⟨hlen, hrw, hws, hcr, hcw⟩ item
            have hpush : fifoPush Size s.absList item = (false, s.absList) := by
              unfold fifoPush
              rw [if_neg]
              rw [absList_length]
              omega
            obtain ⟨ihobs, ihabs, ihinv⟩ := ih (s.try_publish item).2 hinv'
            simp only [QueueState.runOps, fifoRun, hpush, hfail.1]
            rw [habs] at ihobs ihabs
            exact ⟨by rw [ihobs], by rw [ihabs], ihinv⟩
      | con =>
          by_cases hne : s.read_sequence < s.write_sequence
          · obtain ⟨hobs, habs⟩ := try_consume_absList hS
              ⟨hlen, hrw, hws, hcr, hcw⟩ hne
            have hinv' := inv_try_consume (s := s) ⟨hlen, hrw, hws, hcr, hcw⟩
            have hpop : fifoPop s.absList =
                (some (s.buffer.getD (s.read_sequence % Size) default),
                 s.try_consume.2.absList) := by
              rw [habs]
              rfl
            obtain ⟨ihobs, ihabs, ihinv⟩ := ih s.try_consume.2 hinv'
            simp only [QueueState.runOps, fifoRun, hpop, hobs]
            exact ⟨by rw [ihobs], by rw [ihabs], ihinv⟩
          · obtain ⟨hobs, habs, _, _⟩ := try_consume_empty_fields hcw (by omega)
            have hinv' := inv_try_consume (s := s) ⟨hlen, hrw, hws, hcr, hcw⟩
            have habs0 : s.absList = [] := by
              have := absList_length s
              cases h : s.absList with
              | nil => rfl
              | cons a l => rw [h] at this; simp at this; omega
            have hpop : fifoPop s.absList = (none, s.try_consume.2.absList) := by
              rw [habs0, habs, habs0]
              rfl
            obtain ⟨ihobs, ihabs, ihinv⟩ := ih s.try_consume.2 hinv'
            simp only [QueueState.runOps, fifoRun, hpop, hobs]
            exact ⟨by rw [ihobs], by rw [ihabs], ihinv⟩

/-- Publishing a list that fits in the remaining room succeeds throughout
and moves only the write sequence. -/
theorem publishList_ok {T : Type} {Size : Nat} :
    ∀ (l : List T) (s : QueueState T Size), s.Inv →
      s.write_sequence + l.length ≤ s.read_sequence + Size →
      (s.publishList l).2 = List.replicate l.length true ∧
      (s.publishList l).1.Inv ∧
      (s.publishList l).1.write_sequence = s.write_sequence + l.length ∧
      (s.publishList l).1.read_sequence = s.read_sequence := by
  intro l
  induction l with
  | nil =>
      intro s hinv _
      exact ⟨rfl, hinv, by simp [QueueState.publishList], rfl⟩
  | cons x xs ih =>
      intro s hinv h
      obtain ⟨hlen, hrw, hws, hcr, hcw⟩ := hinv
      have hroom : s.write_sequence + 1 ≤ s.read_sequence + Size := by
        simp only [List.length_cons] at h
        omega
      obtain ⟨hfst, hw, hr, _⟩ := try_publish_ok_fields s x hcr hroom
      have hinv' := inv_try_publish ⟨hlen, hrw, hws, hcr, hcw⟩ x
      obtain ⟨ihobs, ihinv, ihw, ihr⟩ := ih (s.try_publish x).2 hinv'
        (by rw [hw, hr]; simp only [List.length_cons] at h; omega)
      simp only [QueueState.publishList, hfst, List.length_cons]
      refine ⟨?_, ihinv, ?_, by rw [ihr, hr]⟩
      · rw [ihobs, List.replicate_succ]
      · rw [ihw, hw]
        omega

/-- Publishing a list that fits appends it to the abstract content. -/
theorem publishList_absList {T : Type} [Inhabited T] {Size k : Nat} (hS : Size = 2 ^ k) :
    ∀ (l : List T) (s : QueueState T Size), s.Inv →
      s.write_sequence + l.length ≤ s.read_sequence + Size →
      (s.publishList l).1.absList = s.absList ++ l ∧
      (s.publishList l).1.Inv := by
  intro l
  induction l with
  | nil =>
      intro s hinv _
      exact ⟨by simp [QueueState.publishList], hinv⟩
  | cons x xs ih =>
      intro s hinv h
      obtain ⟨hlen, hrw, hws, hcr, hcw⟩ := hinv
      have hroom : s.write_sequence + 1 ≤ s.read_sequence + Size := by
        simp only [List.length_cons] at h
        omega
      obtain ⟨hfst, hw, hr, _⟩ := try_publish_ok_fields s x hcr hroom
      have habs := try_publish_absList hS ⟨hlen, hrw, hws, hcr, hcw⟩ x hroom
      have hinv' := inv_try_publish ⟨hlen, hrw, hws, hcr, hcw⟩ x
      obtain ⟨ihabs, ihinv⟩ := ih (s.try_publish x).2 hinv'
        (by rw [hw, hr]; simp only [List.length_cons] at h; omega)
      simp only [QueueState.publishList]
      refine ⟨?_, ihinv⟩
      rw [ihabs, habs]
      simp

/-- Consuming `n ≤` content-length times returns the first `n` abstract
items in order. -/
theorem consumeN_absList {T : Type} [Inhabited T] {Size k : Nat} (hS : Size = 2 ^ k) :
    ∀ (n : Nat) (s : QueueState T Size), s.Inv → n ≤ s.absList.length →
      (s.consumeN n).2 = (s.absList.take n).map some ∧
      (s.consumeN n).1.Inv ∧
      (s.consumeN n).1.absList = s.absList.drop n := by
  intro n
  induction n with
  | zero =>
      intro s hinv _
      exact ⟨by simp [QueueState.consumeN], hinv, by simp [QueueState.consumeN]⟩
  | succ m ih =>
      intro s hinv h
      have hlen := absList_length s
      have hne : s.read_sequence < s.write_sequence := by omega
      obtain ⟨hobs, habs⟩ := try_consume_absList hS hinv hne
      have hinv' := inv_try_consume hinv
      have hlen' : m ≤ s.try_consume.2.absList.length := by
        have : s.absList.length = s.try_consume.2.absList.length + 1 := by
          rw [habs]
          simp
        omega
      obtain ⟨ihobs, ihinv, ihabs⟩ := ih s.try_consume.2 hinv' hlen'
      simp only [QueueState.consumeN]
      refine ⟨?_, ihinv, ?_⟩
      · rw [ihobs, hobs, habs]
        simp
      · rw [ihabs, habs]
        simp

/-- Invariant preservation over any operation sequence (no power-of-two
hypothesis needed). -/
theorem inv_runOps {T : Type} [Inhabited T] {Size : Nat} :
    ∀ (ops : List (QOp T)) (s : QueueState T Size), s.Inv → (s.runOps ops).1.Inv := by
  intro ops
  induction ops with
  | nil => intro s hinv; exact hinv
  | cons op rest ih =>
      intro s hinv
      cases op with
      | pub item => exact ih _ (inv_try_publish hinv item)
      | con => exact ih _ (inv_try_consume hinv)

/-- C1: `try_publish` succeeds iff the buffer is not full, i.e.
`write_seq + 1 ≤ read_seq + N`; on success it writes the item into slot
`write_seq mod N`, advances the write sequence and increments the published
counter; on a full buffer it returns false, increments the failed-publish
counter, and leaves the buffer contents and both sequence counters
unchanged; and starting from an empty buffer, `N` consecutive `try_publish`
calls all succeed, the `(N+1)`-th fails, and after one item is consumed a
publish succeeds again. -/
theorem try_publish_correct {T : Type} [Inhabited T] {Size k : Nat} (hS : Size = 2 ^ k)
    (s : QueueState T Size) (item : T) (hinv : s.Inv) :
    ((s.try_publish item).1 = true ↔ s.write_sequence + 1 ≤ s.read_sequence + Size) ∧
    ((s.try_publish item).1 = true →
       (s.try_publish item).2.buffer = s.buffer.set (s.write_sequence % Size) item ∧
       (s.try_publish item).2.write_sequence = s.write_sequence + 1 ∧
       (s.try_publish item).2.read_sequence = s.read_sequence ∧
       (s.try_publish item).2.total_published = s.total_published + 1) ∧
    ((s.try_publish item).1 = false →
       (s.try_publish item).2.buffer = s.buffer ∧
       (s.try_publish item).2.write_sequence = s.write_sequence ∧
       (s.try_publish item).2.read_sequence = s.read_sequence ∧
       (s.try_publish item).2.failed_publishes = s.failed_publishes + 1) ∧
    (∀ (l : List T) (x y : T), l.length = Size →
       ((QueueState.init T Size).publishList l).2 = List.replicate Size true ∧
       (((QueueState.init T Size).publishList l).1.try_publish x).1 = false ∧
       (((((QueueState.init T Size).publishList l).1.try_publish x).2.try_consume).2.try_publish y).1
         = true) := by
  obtain ⟨hlen, hrw, hws, hcr, hcw⟩ := hinv
  have hpos : 0 < Size := by subst hS; positivity
  refine ⟨?_, ?_, ?_, ?_⟩
  · rw [try_publish_fst s item hcr]
    simp
  · intro hok
    rw [try_publish_fst s item hcr] at hok
    have hroom : s.write_sequence + 1 ≤ s.read_sequence + Size := by
      simpa using hok
    rw [try_publish_spec s item hcr, if_pos hroom]
    exact ⟨by rw [mask_eq_mod hS], rfl, rfl, rfl⟩
  · intro hfail
    rw [try_publish_fst s item hcr] at hfail
    have hfull : ¬ s.write_sequence + 1 ≤ s.read_sequence + Size := by
      simpa using hfail
    rw [try_publish_spec s item hcr, if_neg hfull]
    exact ⟨rfl, rfl, rfl, rfl⟩
  · intro l x y hl
    obtain ⟨hobs, hinvF, hwF, hrF⟩ :=
      publishList_ok l (QueueState.init T Size) (inv_init Size)
        (by simp [QueueState.init, hl])
    have hwF' : ((QueueState.init T Size).publishList l).1.write_sequence = Size := by
      rw [hwF]
      simp [QueueState.init, hl]
    have hrF' : ((QueueState.init T Size).publishList l).1.read_sequence = 0 := by
      rw [hrF]
      simp [QueueState.init]
    obtain ⟨hlenF, hrwF, hwsF, hcrF, hcwF⟩ := hinvF
    have hfull : ¬ ((QueueState.init T Size).publishList l).1.write_sequence + 1 ≤
        ((QueueState.init T Size).publishList l).1.read_sequence + Size := by
      rw [hwF', hrF']
      omega
    obtain ⟨hfst, _, hwA, hrA, _⟩ :=
      try_publish_fail_fields ((QueueState.init T Size).publishList l).1 x hcrF hfull
    refine ⟨by rw [hobs, hl], hfst, ?_⟩
    have hinvA := inv_try_publish ⟨hlenF, hrwF, hwsF, hcrF, hcwF⟩ x
    obtain ⟨hlenA, hrwA, hwsA, hcrA, hcwA⟩ := hinvA
    have hneA : (((QueueState.init T Size).publishList l).1.try_publish x).2.read_sequence <
        (((QueueState.init T Size).publishList l).1.try_publish x).2.write_sequence := by
      rw [hwA, hrA, hwF', hrF']
      omega
    obtain ⟨_, hrC, hwC, _⟩ := try_consume_ok_fields hcwA hneA
    have hinvC := inv_try_consume ⟨hlenA, hrwA, hwsA, hcrA, hcwA⟩
    obtain ⟨_, _, _, hcrC, _⟩ := hinvC
    rw [try_publish_fst _ y hcrC]
    have : (((((QueueState.init T Size).publishList l).1.try_publish x).2).try_consume).2.write_sequence + 1 ≤
        (((((QueueState.init T Size).publishList l).1.try_publish x).2).try_consume).2.read_sequence + Size := by
      rw [hwC, hrC, hwA, hrA, hwF', hrF']
      omega
    simpa using this

/-- Witness for C1 at `T = Nat`, `Size = 4 = 2^2`, the fresh queue and item
7: the hypotheses hold and publishing into the fresh queue succeeds. -/
theorem try_publish_correct_witness :
    (4:Nat) = 2 ^ 2 ∧ (QueueState.init Nat 4).Inv ∧
    (((QueueState.init Nat 4).try_publish 7).1 = true ↔
      (QueueState.init Nat 4).write_sequence + 1 ≤ (QueueState.init Nat 4).read_sequence + 4) := by
  have hinv : (QueueState.init Nat 4).Inv := by
    unfold QueueState.Inv QueueState.init
    refine ⟨by decide, by decide, by decide, by decide, by decide⟩
  exact ⟨by decide, hinv, (try_publish_correct (k := 2) (by decide) (QueueState.init Nat 4) 7 hinv).1⟩

/-- C2: the DisruptorQueue's sequential publish/consume behaviour is
observationally equal to the bounded FIFO list reference model — every
operation sequence from the fresh queue yields the observations the FIFO
model yields from the empty list, the remaining content agrees, and in
particular any item list published with no interleaved consumption is
consumed again in exactly publication order. -/
theorem disruptor_fifo_refinement {T : Type} [Inhabited T] {Size k : Nat}
    (hS : Size = 2 ^ k) (ops : List (QOp T)) :
    ((QueueState.init T Size).runOps ops).2 = (fifoRun Size [] ops).2 ∧
    ((QueueState.init T Size).runOps ops).1.absList = (fifoRun Size [] ops).1 ∧
    (∀ (l : List T), l.length ≤ Size →
       (((QueueState.init T Size).publishList l).1.consumeN l.length).2 = l.map some) := by
  have h := runOps_fifo_sim hS ops (QueueState.init T Size) (inv_init Size)
  rw [absList_init] at h
  refine ⟨h.1, h.2.1, ?_⟩
  intro l hl
  obtain ⟨habs, hinvP⟩ := publishList_absList hS l (QueueState.init T Size) (inv_init Size)
    (by simp [QueueState.init]; omega)
  rw [absList_init] at habs
  simp only [List.nil_append] at habs
  obtain ⟨hc, _, _⟩ := consumeN_absList hS l.length ((QueueState.init T Size).publishList l).1
    hinvP (by rw [habs])
  rw [habs] at hc
  simpa using hc

/-- Witness for C2 at `T = Nat`, `Size = 4 = 2^2`, a concrete operation
sequence that publishes two items and consumes three times. -/
theorem disruptor_fifo_refinement_witness :
    (4:Nat) = 2 ^ 2 ∧
    ((QueueState.init Nat 4).runOps
        [QOp.pub 10, QOp.pub 20, QOp.con, QOp.con, QOp.con]).2 =
      (fifoRun 4 [] [QOp.pub 10, QOp.pub 20, QOp.con, QOp.con, QOp.con]).2 :=
  ⟨by decide,
   (disruptor_fifo_refinement (k := 2) (by decide)
     [QOp.pub 10, QOp.pub 20, QOp.con, QOp.con, QOp.con]).1⟩

/-- C9: after every sequence of `try_publish`/`try_consume` operations from
the freshly constructed queue, `read_sequence ≤ write_sequence ≤
read_sequence + Size` holds; consequently `size()` equals
`write_sequence - read_sequence`, never exceeds the capacity, and the
clamp-to-zero branch of `size()` is not taken. -/
theorem queue_sequence_invariant {T : Type} [Inhabited T] {Size : Nat}
    (ops : List (QOp T)) :
    ((QueueState.init T Size).runOps ops).1.read_sequence ≤
      ((QueueState.init T Size).runOps ops).1.write_sequence ∧
    ((QueueState.init T Size).runOps ops).1.write_sequence ≤
      ((QueueState.init T Size).runOps ops).1.read_sequence + Size ∧
    ((QueueState.init T Size).runOps ops).1.sizeQ =
      ((QueueState.init T Size).runOps ops).1.write_sequence -
        ((QueueState.init T Size).runOps ops).1.read_sequence ∧
    ((QueueState.init T Size).runOps ops).1.sizeQ ≤
      ((QueueState.init T Size).runOps ops).1.capacity ∧
    ((QueueState.init T Size).runOps ops).1.write_sequence ≥
      ((QueueState.init T Size).runOps ops).1.read_sequence := by
  obtain ⟨hlen, hrw, hws, hcr, hcw⟩ :=
    inv_runOps ops (QueueState.init T Size) (inv_init Size)
  refine ⟨hrw, hws, ?_, ?_, hrw⟩
  · unfold QueueState.sizeQ
    rw [if_pos hrw]
  · unfold QueueState.sizeQ QueueState.capacity
    rw [if_pos hrw]
    omega

/-! ## Event-validation lemmas -/

/-- Boolean non-emptiness of a string as a proposition. -/
theorem notIsEmpty_iff (s : String) : (!s.isEmpty) = true ↔ s ≠ "" := by
  rw [Bool.not_eq_true']
  constructor
  · intro h hs
    subst hs
    exact absurd h (by decide)
  · intro h
    cases hx : s.isEmpty
    · rfl
    · exact absurd ((String.isEmpty_iff s).mp hx) h

/-- Truth table of `MarketEvent::validate`. -/
theorem marketEvent_validate_iff (e : MarketEvent) :
    e.validate = true ↔
      (0 < e.sequence_id ∧ e.symbol ≠ "" ∧ e.high ≥ e.low ∧ e.high ≥ e.openPrice ∧
       e.high ≥ e.close ∧ e.low ≤ e.openPrice ∧ e.low ≤ e.close ∧ e.bid ≤ e.ask ∧
       0 < e.bid ∧ 0 < e.ask ∧ e.volume ≥ 0) := by
  unfold MarketEvent.validate
  simp only [Bool.and_eq_true, decide_eq_true_eq, notIsEmpty_iff, ge_iff_le, and_assoc]

/-- C5: `MarketEvent::validate()` returns true iff `sequence_id > 0`, the
symbol is non-empty, `high ≥ low`, `high ≥ open`, `high ≥ close`,
`low ≤ open`, `low ≤ close`, `bid ≤ ask`, `bid > 0`, `ask > 0` and
`volume ≥ 0`; in particular every bar with `high < low` fails
`validate()`. -/
theorem market_validate_spec (e : MarketEvent) :
    (e.validate = true ↔
      (0 < e.sequence_id ∧ e.symbol ≠ "" ∧ e.high ≥ e.low ∧ e.high ≥ e.openPrice ∧
       e.high ≥ e.close ∧ e.low ≤ e.openPrice ∧ e.low ≤ e.close ∧ e.bid ≤ e.ask ∧
       0 < e.bid ∧ 0 < e.ask ∧ e.volume ≥ 0)) ∧
    (e.high < e.low → e.validate = false) := by
  refine ⟨marketEvent_validate_iff e, ?_⟩
  intro hlt
  cases hv : e.validate
  · rfl
  · obtain ⟨_, _, hge, _⟩ := (marketEvent_validate_iff e).mp hv
    exact absurd hge (not_le.mpr hlt)

/-- Witness for C5 at the concrete bar with `high = 1 < 2 = low`: it fails
`validate()`. -/
theorem market_validate_spec_witness :
    badBar.high < badBar.low ∧ badBar.validate = false := by
  have h : badBar.high < badBar.low := by norm_num [badBar]
  exact ⟨h, (market_validate_spec badBar).2 h⟩

/-- Decomposition of each variant's validity into the base sequence-id check
and the variant-specific predicate. -/
theorem validateEvent_iff (v : EventVariant) :
    validateEvent v = true ↔ (0 < getEventSequenceId v ∧ variantPredicate v = true) := by
  cases v with
  | market e =>
      simp only [validateEvent, getEventSequenceId, variantPredicate, MarketEvent.validate,
        Bool.and_eq_true, decide_eq_true_eq, and_assoc]
  | signal e =>
      simp only [validateEvent, getEventSequenceId, variantPredicate, SignalEvent.validate,
        Bool.and_eq_true, decide_eq_true_eq, and_assoc]
  | order e =>
      simp only [validateEvent, getEventSequenceId, variantPredicate]
      unfold OrderEvent.validate
      split_ifs with hA hB
      · simp only [Bool.and_eq_true, decide_eq_true_eq] at hB
        simp only [false_iff]
        intro hcontra
        simp only [Bool.and_eq_true, Bool.or_eq_true, decide_eq_true_eq, and_assoc] at hcontra
        obtain ⟨_, _, _, _, hd⟩ := hcontra
        rcases hd with hm | hp
        · exact hB.1 hm
        · exact absurd hp (not_lt.mpr hB.2)
      · simp only [Bool.and_eq_true, decide_eq_true_eq, and_assoc] at hA
        obtain ⟨hs, hsym, hq, hoid⟩ := hA
        simp only [true_iff, Bool.and_eq_true, Bool.or_eq_true, decide_eq_true_eq, and_assoc]
        refine ⟨hs, hsym, hq, hoid, ?_⟩
        by_cases hm : e.order_type = OrderType.MARKET
        · exact Or.inl hm
        · right
          have hnp : ¬ e.price ≤ 0 := by
            intro hp
            refine hB ?_
            rw [Bool.and_eq_true]
            exact ⟨decide_eq_true hm, decide_eq_true hp⟩
          exact not_le.mp hnp
      · simp only [false_iff]
        intro hcontra
        simp only [Bool.and_eq_true, Bool.or_eq_true, decide_eq_true_eq, and_assoc] at hcontra
        obtain ⟨hs, hsym, hq, hoid, _⟩ := hcontra
        refine hA ?_
        simp only [Bool.and_eq_true, decide_eq_true_eq, and_assoc]
        exact ⟨hs, hsym, hq, hoid⟩
  | fill e =>
      simp only [validateEvent, getEventSequenceId, variantPredicate, FillEvent.validate,
        Bool.and_eq_true, decide_eq_true_eq, and_assoc]
  | risk e =>
      simp only [validateEvent, getEventSequenceId, variantPredicate]
      unfold RiskEvent.validate
      cases hseq : decide (0 < e.sequence_id) with
      | false =>
          have hs := of_decide_eq_false hseq
          simp [hseq, hs]
      | true =>
          have hs := of_decide_eq_true hseq
          cases hemp : e.message.isEmpty with
          | true => simp [hseq, hemp]
          | false => simp [hseq, hemp, hs]

/-- C3: an event is valid iff `sequence_id > 0` and its variant-specific
predicate holds; validity is enforced at the publish boundary — each
`emit*` helper refuses to publish an event whose `validate()` is false,
leaving the queue unchanged — and re-checked by the Dispatcher, which for
every event with `validate()` false increments its error counter and
returns without invoking any Strategy, Portfolio or ExecutionHandler
method. -/
theorem event_validity_enforced {Q : Type} {Size : Nat} :
    (∀ v : EventVariant, validateEvent v = true ↔
        (0 < getEventSequenceId v ∧ variantPredicate v = true)) ∧
    (∀ (q : QueueState EventVariant Size) (sig : SignalEvent), sig.validate = false →
        emitSignal (some q) sig = some q) ∧
    (∀ (q : QueueState EventVariant Size) (ord : OrderEvent), ord.validate = false →
        emitOrder (some q) ord = some q) ∧
    (∀ (q : QueueState EventVariant Size) (fl : FillEvent), fl.validate = false →
        emitFill (some q) fl = some q) ∧
    (∀ (d : EventDispatcher Q) (q : Q) (v : EventVariant), validateEvent v = false →
        d.dispatch q v = ({ d with errors := d.errors + 1 }, q, [])) := by
  refine ⟨validateEvent_iff, ?_, ?_, ?_, ?_⟩
  · intro q sig h
    simp [emitSignal, h]
  · intro q ord h
    simp [emitOrder, h]
  · intro q fl h
    simp [emitFill, h]
  · intro d q v h
    cases v with
    | market e =>
        simp only [validateEvent] at h
        simp only [EventDispatcher.dispatch, EventDispatcher.dispatchMarket, if_pos h]
    | signal e =>
        simp only [validateEvent] at h
        simp only [EventDispatcher.dispatch, EventDispatcher.dispatchSignal, if_pos h]
    | order e =>
        simp only [validateEvent] at h
        simp only [EventDispatcher.dispatch, EventDispatcher.dispatchOrder, if_pos h]
    | fill e =>
        simp only [validateEvent] at h
        simp only [EventDispatcher.dispatch, EventDispatcher.dispatchFill, if_pos h]
    | risk e =>
        simp only [validateEvent] at h
        simp only [EventDispatcher.dispatch, EventDispatcher.dispatchRisk, if_pos h]

/-- Witness for C3: the default-constructed signal event (sequence id 0) is
invalid, and dispatching it through an empty dispatcher only bumps the
error counter. -/
theorem event_validity_enforced_witness :
    EventDispatcher.dispatch (Q := Unit)
        { strategy := none, portfolio := none, execution := none, errors := 0 } ()
        (EventVariant.signal default) =
      ({ strategy := none, portfolio := none, execution := none, errors := 0 + 1 },
       (), []) :=
  (@event_validity_enforced Unit 4).2.2.2.2
    { strategy := none, portfolio := none, execution := none, errors := 0 } ()
    (EventVariant.signal default) (by decide)

/-- Dispatching one valid Market event through a dispatcher whose strategy
always throws: the portfolio's `updateMarket` is invoked, the error counter
grows by exactly one, and the collaborator fields survive. -/
theorem dispatchMarket_strategy_throws {Q : Type} (d : EventDispatcher Q) (q : Q)
    (st : StrategyM Q) (p : PortfolioM Q)
    (hst : d.strategy = some st) (hp : d.portfolio = some p)
    (hraise : ∀ (e : MarketEvent) (qq : Q), (st.calculateSignals e qq).2.isSome = true)
    (e : MarketEvent) (hv : e.validate = true) :
    (d.dispatchMarket q e).1.errors = d.errors + 1 ∧
    (d.dispatchMarket q e).1.strategy = d.strategy ∧
    (d.dispatchMarket q e).1.portfolio = d.portfolio ∧
    (d.dispatchMarket q e).1.execution = d.execution ∧
    CollabCall.updateMarket e ∈ (d.dispatchMarket q e).2.2 := by
  have hv' : ¬ e.validate = false := by simp [hv]
  simp only [EventDispatcher.dispatchMarket, if_neg hv', hp, hst]
  cases hrp : (p.updateMarket e q).2 with
  | some err => simp
  | none =>
      have hr := hraise e (p.updateMarket e q).1
      cases hrs : (st.calculateSignals e (p.updateMarket e q).1).2 with
      | none => rw [hrs] at hr; simp at hr
      | some err => simp

/-- C4: with a strategy whose `calculateSignals` always raises, every valid
Market event still completes dispatch — the exception is caught at the
Dispatcher boundary and does not propagate — the error counter ends at
exactly the number of events, and `Portfolio.updateMarket` is still invoked
for every one of the events (the portfolio routing is not skipped because
of the strategy's failure). -/
theorem dispatcher_isolation {Q : Type} (d : EventDispatcher Q) (q : Q)
    (st : StrategyM Q) (p : PortfolioM Q)
    (hst : d.strategy = some st) (hp : d.portfolio = some p)
    (hraise : ∀ (e : MarketEvent) (qq : Q), (st.calculateSignals e qq).2.isSome = true)
    (evs : List MarketEvent) (hval : ∀ e ∈ evs, e.validate = true) :
    (EventDispatcher.dispatchAll d q (evs.map EventVariant.market)).1.errors =
      d.errors + evs.length ∧
    (EventDispatcher.dispatchAll d q (evs.map EventVariant.market)).2.2.length =
      evs.length ∧
    List.Forall₂ (fun e tr => CollabCall.updateMarket e ∈ tr) evs
      (EventDispatcher.dispatchAll d q (evs.map EventVariant.market)).2.2 := by
  induction evs generalizing d q with
  | nil => exact ⟨rfl, rfl, List.Forall₂.nil⟩
  | cons e rest ih =>
      have hv : e.validate = true := hval e (by simp)
      obtain ⟨herr, hs, hpo, hex, hmem⟩ :=
        dispatchMarket_strategy_throws d q st p hst hp hraise e hv
      have hst' : (d.dispatchMarket q e).1.strategy = some st := by rw [hs, hst]
      have hp' : (d.dispatchMarket q e).1.portfolio = some p := by rw [hpo, hp]
      obtain ⟨iherr, ihlen, ihfa⟩ :=
        ih (d.dispatchMarket q e).1 (d.dispatchMarket q e).2.1 hst' hp'
          (fun x hx => hval x (by simp [hx]))
      simp only [List.map_cons, EventDispatcher.dispatchAll, EventDispatcher.dispatch]
      refine ⟨?_, ?_, ?_⟩
      · rw [iherr, herr]
        simp only [List.length_cons]
        omega
      · simp [ihlen]
      · exact List.Forall₂.cons hmem ihfa

/-- Witness for C4: two valid bars through the concrete always-throwing
strategy and quiet portfolio — both dispatches complete, the error counter
is 2, and the portfolio was called for each bar. -/
theorem dispatcher_isolation_witness :
    (EventDispatcher.dispatchAll throwingDispatcher ()
        ([goodBar, goodBar].map EventVariant.market)).1.errors = 0 + 2 ∧
    (EventDispatcher.dispatchAll throwingDispatcher ()
        ([goodBar, goodBar].map EventVariant.market)).2.2.length = 2 ∧
    List.Forall₂ (fun e tr => CollabCall.updateMarket e ∈ tr) [goodBar, goodBar]
      (EventDispatcher.dispatchAll throwingDispatcher ()
        ([goodBar, goodBar].map EventVariant.market)).2.2 :=
  dispatcher_isolation throwingDispatcher () throwingStrategy quietPortfolio
    rfl rfl (fun _ _ => rfl) [goodBar, goodBar]
    (by intro e he; simp at he; subst he; decide)

/-! ## Object-pool lemmas -/

/-- A flag read that returned `false` (free) was in range. -/
theorem getD_false_lt {l : List Bool} {idx : Nat}
    (h : l.getD idx true = false) : idx < l.length := by
  by_contra hge
  rw [List.getD_eq_default _ _ (by omega)] at h
  exact absurd h (by decide)

/-- A successful probe loop hands out a slot whose flag was clear, sets
exactly that flag, and leaves the objects untouched. -/
theorem acquireAux_some_spec {T : Type} {N : Nat} :
    ∀ (f : Nat) (s : PoolState T N) (idx : Nat),
      (s.acquireAux f).1 = some idx →
      s.in_use.getD idx true = false ∧
      (s.acquireAux f).2.in_use = s.in_use.set idx true ∧
      (s.acquireAux f).2.pool = s.pool := by
  intro f
  induction f with
  | zero =>
      intro s idx h
      simp [PoolState.acquireAux] at h
  | succ g ih =>
      intro s idx h
      simp only [PoolState.acquireAux] at h ⊢
      split_ifs at h ⊢ with hc
      · simp only at h
        obtain rfl : s.next_free % N = idx := Option.some.inj h
        exact ⟨hc, rfl, rfl⟩
      · exact ih _ idx h

/-- If some slot reachable by the remaining probes is free, the probe loop
succeeds. -/
theorem acquireAux_isSome_of_free {T : Type} {N : Nat} :
    ∀ (f : Nat) (s : PoolState T N) (j : Nat), j < N →
      s.in_use.getD j true = false →
      (∃ a, a < f ∧ (s.next_free + a) % N = j) →
      ((s.acquireAux f).1).isSome = true := by
  intro f
  induction f with
  | zero =>
      intro s j hj hfree hex
      obtain ⟨a, ha, _⟩ := hex
      omega
  | succ g ih =>
      intro s j hj hfree hex
      obtain ⟨a, ha, hmod⟩ := hex
      simp only [PoolState.acquireAux]
      split_ifs with hc
      · rfl
      · rcases a with _ | a'
        · exfalso
          rw [Nat.add_zero] at hmod
          rw [hmod] at hc
          exact hc hfree
        · refine ih _ j hj hfree ⟨a', by omega, ?_⟩
          have harith : s.next_free + 1 + a' = s.next_free + (a' + 1) := by omega
          rw [harith]
          exact hmod

/-- Any residue below `N` is reached by one of `2 N` consecutive probe
positions. -/
theorem exists_probe {N : Nat} (next j : Nat) (hj : j < N) :
    ∃ a, a < N * 2 ∧ (next + a) % N = j := by
  have hN : 0 < N := by omega
  have hr : next % N < N := Nat.mod_lt _ hN
  have hkey : ∀ a0 : Nat, (next % N + a0) % N = (next + a0) % N :=
    fun a0 => (Nat.mod_modEq next N).add_right a0
  rcases le_or_lt (next % N) j with hle | hlt
  · refine ⟨j - next % N, by omega, ?_⟩
    rw [← hkey]
    have e1 : next % N + (j - next % N) = j := by omega
    rw [e1]
    exact Nat.mod_eq_of_lt hj
  · refine ⟨N + j - next % N, by omega, ?_⟩
    rw [← hkey]
    have e1 : next % N + (N + j - next % N) = N + j := by omega
    rw [e1, Nat.add_mod_left]
    exact Nat.mod_eq_of_lt hj

/-- `acquire` hands out a slot whose flag was clear, sets exactly that
flag, and leaves the objects untouched. -/
theorem acquire_some_spec {T : Type} {N : Nat} (s : PoolState T N) (idx : Nat)
    (h : (s.acquire).1 = some idx) :
    s.in_use.getD idx true = false ∧
    (s.acquire).2.in_use = s.in_use.set idx true ∧
    (s.acquire).2.pool = s.pool :=
  acquireAux_some_spec (N * 2) s idx h

/-- `acquire` succeeds whenever some slot is free. -/
theorem acquire_isSome_of_free {T : Type} {N : Nat} (s : PoolState T N) (j : Nat)
    (hj : j < N) (hfree : s.in_use.getD j true = false) :
    ((s.acquire).1).isSome = true :=
  acquireAux_isSome_of_free (N * 2) s j hj hfree (exists_probe s.next_free j hj)

/-- C8: the object pool's acquire/release contract — `acquire` never hands
out a slot whose in-use flag is set (and marks the slot it does hand out),
so two acquires without an intervening release return distinct slots;
`acquire` returns null (after its bounded `2 N` probes) only when every slot
is in use; and `release` resets the object to its default-constructed state
and clears the slot's flag, making that slot eligible for a subsequent
`acquire`. -/
theorem event_pool_contract {T : Type} [Inhabited T] {N : Nat} (s : PoolState T N)
    (hinv : s.Inv) :
    (∀ idx, (s.acquire).1 = some idx →
        s.in_use.getD idx true = false ∧
        (s.acquire).2.in_use = s.in_use.set idx true ∧
        (s.acquire).2.pool = s.pool) ∧
    (∀ idx jdx, (s.acquire).1 = some idx →
        ((s.acquire).2.acquire).1 = some jdx → jdx ≠ idx) ∧
    ((s.acquire).1 = none → ∀ j, j < N → s.in_use.getD j true = true) ∧
    (∀ idx, idx < N →
        (s.release (some idx)).pool = s.pool.set idx default ∧
        (s.release (some idx)).in_use = s.in_use.set idx false ∧
        (s.release (some idx)).pool.getD idx default = default ∧
        (s.release (some idx)).in_use.getD idx true = false ∧
        (((s.release (some idx)).acquire).1).isSome = true) := by
  obtain ⟨hplen, hulen⟩ := hinv
  refine ⟨?_, ?_, ?_, ?_⟩
  · intro idx h
    exact acquire_some_spec s idx h
  · intro idx jdx h1 h2
    obtain ⟨hfree1, hset1, _⟩ := acquire_some_spec s idx h1
    obtain ⟨hfree2, _, _⟩ := acquire_some_spec (s.acquire).2 jdx h2
    intro heq
    subst heq
    rw [hset1] at hfree2
    have hlt : jdx < s.in_use.length := getD_false_lt hfree1
    rw [List.getD_eq_getElem?_getD, List.getElem?_set_self hlt] at hfree2
    simp at hfree2
  · intro hnone j hj
    cases hx : s.in_use.getD j true with
    | true => rfl
    | false =>
        have := acquire_isSome_of_free s j hj hx
        rw [hnone] at this
        simp at this
  · intro idx hidx
    have hulen' : idx < s.in_use.length := by omega
    have hplen' : idx < s.pool.length := by omega
    have hrel : s.release (some idx) =
        { s with
           pool := s.pool.set idx default
           in_use := s.in_use.set idx false
           deallocations := s.deallocations + 1 } := by
      simp [PoolState.release, hidx]
    refine ⟨by rw [hrel], by rw [hrel], ?_, ?_, ?_⟩
    · rw [hrel]
      simp only
      rw [List.getD_eq_getElem?_getD, List.getElem?_set_self hplen']
      rfl
    · rw [hrel]
      simp only
      rw [List.getD_eq_getElem?_getD, List.getElem?_set_self hulen']
      rfl
    · refine acquire_isSome_of_free _ idx hidx ?_
      rw [hrel]
      simp only
      rw [List.getD_eq_getElem?_getD, List.getElem?_set_self hulen']
      rfl

/-- Witness for C8 at the fresh two-slot pool of naturals: the invariant
holds, the first `acquire` hands out slot 0, and that slot's flag was
clear. -/
theorem event_pool_contract_witness :
    (PoolState.init Nat 2).Inv ∧
    ((PoolState.init Nat 2).acquire).1 = some 0 ∧
    (PoolState.init Nat 2).in_use.getD 0 true = false := by
  have hinv : (PoolState.init Nat 2).Inv := by
    unfold PoolState.Inv PoolState.init
    exact ⟨by decide, by decide⟩
  have hacq : ((PoolState.init Nat 2).acquire).1 = some 0 := by decide
  exact ⟨hinv, hacq, ((event_pool_contract _ hinv).1 0 hacq).1⟩

/-! ## Engine lemmas -/

/-- The inner drain loop consumes at most its remaining budget on top of
the events already counted this tick. -/
theorem processTick_le {Size : Nat} :
    ∀ (budget : Nat) (d : EventDispatcher (QueueState EventVariant Size))
      (q : QueueState EventVariant Size) (n : Nat),
      (processTick budget d q n).2.2 ≤ n + budget := by
  intro budget
  induction budget with
  | zero =>
      intro d q n
      simp [processTick]
  | succ g ih =>
      intro d q n
      simp only [processTick]
      split_ifs with he
      · exact Nat.le_add_right n (g + 1)
      · rcases hc : q.try_consume with ⟨r, q'⟩
        cases r with
        | none => exact Nat.le_add_right n (g + 1)
        | some ev => exact le_trans (ih _ _ (n + 1)) (by omega)

/-- Over the whole run loop, each tick contributes at most the per-tick cap
to the dispatched-event count. -/
theorem runLoop_events_le {Size : Nat} (cfg : CerebroConfig) :
    ∀ (pending : List (QueueState EventVariant Size → QueueState EventVariant Size))
      (d : EventDispatcher (QueueState EventVariant Size))
      (q : QueueState EventVariant Size) (ep bp : Nat),
      (runLoop cfg pending d q ep bp).2.2.1 ≤
        ep + pending.length * cfg.max_events_per_tick := by
  intro pending
  induction pending with
  | nil =>
      intro d q ep bp
      simp [runLoop]
  | cons upd rest ih =>
      intro d q ep bp
      simp only [runLoop, List.length_cons]
      have h1 := processTick_le cfg.max_events_per_tick d (upd q) 0
      have h2 := ih (processTick cfg.max_events_per_tick d (upd q) 0).1
        (processTick cfg.max_events_per_tick d (upd q) 0).2.1
        (ep + (processTick cfg.max_events_per_tick d (upd q) 0).2.2) (bp + 1)
      rw [Nat.succ_mul]
      omega

/-- C7: in every iteration of the engine's main run loop, at most
`max_events_per_tick` events (default 1000) are consumed from the ring
buffer and dispatched before control returns to pull the next market
update — so over a whole run the dispatched count is bounded by the cap
times the number of ticks, and the inner drain loop (a structurally
decreasing recursion on the remaining budget) terminates even if
collaborators keep publishing feedback events. -/
theorem per_tick_cap {Size : Nat} (cfg : CerebroConfig)
    (d : EventDispatcher (QueueState EventVariant Size))
    (q : QueueState EventVariant Size) :
    (processTick cfg.max_events_per_tick d q 0).2.2 ≤ cfg.max_events_per_tick ∧
    (∀ (pending : List (QueueState EventVariant Size → QueueState EventVariant Size)),
        (runLoop cfg pending d q 0 0).2.2.1 ≤
          pending.length * cfg.max_events_per_tick) ∧
    defaultConfig.max_events_per_tick = 1000 := by
  refine ⟨?_, ?_, rfl⟩
  · simpa using processTick_le cfg.max_events_per_tick d q 0
  · intro pending
    simpa using runLoop_events_le cfg pending d q 0 0

/-- C10: `initialize()` on an already-initialized engine returns
immediately as a no-op — it makes no collaborator lifecycle call, resets no
statistics, and leaves the engine state unchanged. -/
theorem initialize_idempotent {Size : Nat} (s : CerebroState Size)
    (h : s.initialized = true) :
    s.initializeAll = Except.ok (s, []) := by
  unfold CerebroState.initializeAll
  rw [if_pos h]

/-- Witness for C10: a concrete already-initialized engine state. -/
theorem initialize_idempotent_witness :
    ({ CerebroState.mk0 4 with initialized := true } : CerebroState 4).initializeAll =
      Except.ok (({ CerebroState.mk0 4 with initialized := true } : CerebroState 4), []) :=
  initialize_idempotent { CerebroState.mk0 4 with initialized := true } rfl

/-- C6 (amended): on an engine that has not yet been initialized, if any of
the four collaborators is unset then both `initialize()` and `run()` raise
the configuration error; `run` leaves the engine state unchanged — in
particular the running flag keeps its value, so the engine never becomes
`Running` — pulls no market update and dispatches no event. -/
theorem run_missing_collaborator {Size : Nat} (s : CerebroState Size)
    (hni : s.initialized = false)
    (hmiss : s.data_handler = none ∨ s.strategy = none ∨ s.portfolio = none ∨
             s.execution_handler = none) :
    s.initializeAll = Except.error (EngineError.backtestException
        "All components must be set before initialization") ∧
    s.run = (s, { bars_pulled := 0, events_dispatched := 0 },
      some (EngineError.backtestException
        "All components must be set before initialization")) ∧
    (s.run).1.running = s.running := by
  have hinit : s.initializeAll = Except.error (EngineError.backtestException
      "All components must be set before initialization") := by
    unfold CerebroState.initializeAll
    rw [if_neg (by simp [hni])]
    rw [if_pos]
    rcases hmiss with h | h | h | h <;> simp [h]
  have hrun : s.run = (s, { bars_pulled := 0, events_dispatched := 0 },
      some (EngineError.backtestException
        "All components must be set before initialization")) := by
    unfold CerebroState.run
    rw [if_pos hni, hinit]
  exact ⟨hinit, hrun, by rw [hrun]⟩

/-- Witness for C6's amended theorem: the freshly constructed engine has no
collaborators and is not initialized; `initialize()` raises the
configuration error. -/
theorem run_missing_collaborator_witness :
    (CerebroState.mk0 4).initializeAll = Except.error (EngineError.backtestException
        "All components must be set before initialization") :=
  (run_missing_collaborator (CerebroState.mk0 4) rfl (Or.inl rfl)).1

/-- Counterexample to C6 as stated: through the public API one can set all
four collaborators, initialize, and then unset the data handler (the
setters are only rejected while running).  The resulting engine has a
collaborator unset, yet `initialize()` raises no configuration error — the
already-initialized guard returns first — so the claim's unrestricted
quantification over engines with an unset collaborator is false. -/
theorem run_missing_collaborator_cex :
    cexEngine0.setDataHandler (some cexDataHandler) = Except.ok cexEngine1 ∧
    cexEngine1.setStrategy (some cexStrategy) = Except.ok cexEngine2 ∧
    cexEngine2.setPortfolio (some cexPortfolio) = Except.ok cexEngine3 ∧
    cexEngine3.setExecutionHandler (some cexExecution) = Except.ok cexEngine4 ∧
    cexEngine4.initializeAll = Except.ok (cexEngine5,
      [InitCall.dataHandlerInit, InitCall.portfolioInit 100000,
       InitCall.strategyInit, InitCall.executionInit]) ∧
    cexEngine5.setDataHandler none = Except.ok cexEngine ∧
    cexEngine.data_handler = none ∧
    cexEngine.initialized = true ∧
    cexEngine.initializeAll = Except.ok (cexEngine, []) :=
  ⟨rfl, rfl, rfl, rfl, rfl, rfl, rfl, rfl, rfl⟩

end StatArb
